import Mathlib

/-!
Verification development for the Smart IC Navigator application
(`smart_ic_app.py`).  The file embeds, as executable Lean definitions, the
response-normalisation logic of `ask_claude_json` (locating the candidate
JSON substring between the first brace and the last closing brace,
pre-escaping raw newlines, deleting carriage returns, and parsing with
`json.loads` semantics), the mode-dependent prompt assembly, and the
session-history insertion, and proves the specified properties about them.
-/

/-- JSON values as produced by Python's `json.loads`.  Numbers are kept as
their source lexeme (the distinction between int and float values is never
relevant here); objects are ordered key/value lists with `dict` insertion
semantics (first position kept, last value wins on duplicate keys). -/
inductive Json where
  | null : Json
  | bool : Bool → Json
  | num : String → Json
  | str : String → Json
  | arr : List Json → Json
  | obj : List (String × Json) → Json

/-- The character `U+007B` (left curly brace). -/
def lcurly : Char := Char.ofNat 123

/-- The character `U+007D` (right curly brace). -/
def rcurly : Char := Char.ofNat 125

/-- JSON inter-token whitespace, as accepted by Python's `json` module. -/
def isJsonWs (c : Char) : Bool :=
  c = ' ' || c = '\t' || c = '\n' || c = '\r'

/-- Skip leading JSON whitespace. -/
def skipWs : List Char → List Char
  | [] => []
  | c :: cs => if isJsonWs c then skipWs cs else c :: cs

/-- Value of a hexadecimal digit, if the character is one. -/
def hexVal (c : Char) : Option Nat :=
  if '0' ≤ c ∧ c ≤ '9' then some (c.toNat - '0'.toNat)
  else if 'a' ≤ c ∧ c ≤ 'f' then some (c.toNat - 'a'.toNat + 10)
  else if 'A' ≤ c ∧ c ≤ 'F' then some (c.toNat - 'A'.toNat + 10)
  else none

/-- Drop `lit` from the front of `cs` when it is literally there. -/
def dropLit (lit : List Char) (cs : List Char) : Option (List Char) :=
  match lit, cs with
  | [], rest => some rest
  | _ :: _, [] => none
  | l :: ls, c :: rest => if c = l then dropLit ls rest else none

/-- Body of a JSON string literal, after the opening quote.  Faithful to
`json.loads` in strict mode: raw control characters are rejected, the
standard escapes and `\uXXXX` (with surrogate-pair combination) are
recognised.  (Lone surrogates, which CPython would keep in its `str`,
are not representable in `Char` and are rejected; no claim exercises
them.) -/
def parseStringBody (acc : List Char) : List Char → Except String (String × List Char)
  | [] => .error "Unterminated string"
  | c :: rest =>
    if c = '\"' then .ok (String.mk acc.reverse, rest)
    else if c = '\\' then
      match rest with
      | [] => .error "Unterminated string"
      | e :: rest2 =>
        if e = '\"' then parseStringBody ('\"' :: acc) rest2
        else if e = '\\' then parseStringBody ('\\' :: acc) rest2
        else if e = '/' then parseStringBody ('/' :: acc) rest2
        else if e = 'b' then parseStringBody (Char.ofNat 8 :: acc) rest2
        else if e = 'f' then parseStringBody (Char.ofNat 12 :: acc) rest2
        else if e = 'n' then parseStringBody ('\n' :: acc) rest2
        else if e = 'r' then parseStringBody ('\r' :: acc) rest2
        else if e = 't' then parseStringBody ('\t' :: acc) rest2
        else if e = 'u' then
          match rest2 with
          | h1 :: h2 :: h3 :: h4 :: rest3 =>
            match hexVal h1, hexVal h2, hexVal h3, hexVal h4 with
            | some a, some b, some c2, some d =>
              let code := ((a * 16 + b) * 16 + c2) * 16 + d
              if code < 0xD800 ∨ 0xDFFF < code then
                parseStringBody (Char.ofNat code :: acc) rest3
              else if code ≤ 0xDBFF then
                match rest3 with
                | b1 :: u2 :: g1 :: g2 :: g3 :: g4 :: rest4 =>
                  if b1 = '\\' ∧ u2 = 'u' then
                    match hexVal g1, hexVal g2, hexVal g3, hexVal g4 with
                    | some a2, some b2, some c3, some d2 =>
                      let code2 := ((a2 * 16 + b2) * 16 + c3) * 16 + d2
                      if 0xDC00 ≤ code2 ∧ code2 ≤ 0xDFFF then
                        parseStringBody
                          (Char.ofNat (0x10000 + (code - 0xD800) * 0x400 + (code2 - 0xDC00)) :: acc)
                          rest4
                      else .error "Unpaired high surrogate"
                    | _, _, _, _ => .error "Invalid hex escape"
                  else .error "Unpaired high surrogate"
                | _ => .error "Unpaired high surrogate"
              else .error "Unpaired low surrogate"
            | _, _, _, _ => .error "Invalid hex escape"
          | _ => .error "Invalid hex escape"
        else .error "Invalid escape"
    else if c.toNat < 0x20 then .error "Invalid control character"
    else parseStringBody (c :: acc) rest

/-- Longest prefix of decimal digits. -/
def takeDigits : List Char → List Char × List Char
  | [] => ([], [])
  | c :: rest =>
    if c.isDigit then
      let (ds, r) := takeDigits rest
      (c :: ds, r)
    else ([], c :: rest)

/-- Lex a JSON number (the regular grammar used by Python's `json`):
`-? (0 | [1-9][0-9]*) (. [0-9]+)? ([eE][+-]? [0-9]+)?`.  A dot or
exponent marker not followed by a digit is left unconsumed, as in the
CPython number regex. -/
def parseNumber (cs : List Char) : Except String (String × List Char) :=
  let (sign, cs1) : List Char × List Char :=
    match cs with
    | c :: r => if c = '-' then (['-'], r) else ([], cs)
    | [] => ([], [])
  match cs1 with
  | [] => .error "Expecting value"
  | c :: rest =>
    if ¬ c.isDigit then .error "Expecting value"
    else
      let (ipart, cs2) : List Char × List Char :=
        if c = '0' then (['0'], rest) else takeDigits cs1
      let (fpart, cs3) : List Char × List Char :=
        match cs2 with
        | p :: d :: r =>
          if p = '.' ∧ d.isDigit then
            let (ds, r2) := takeDigits (d :: r)
            ('.' :: ds, r2)
          else ([], cs2)
        | _ => ([], cs2)
      let (epart, cs4) : List Char × List Char :=
        match cs3 with
        | e :: s :: d :: r =>
          if (e = 'e' ∨ e = 'E') ∧ (s = '+' ∨ s = '-') ∧ d.isDigit then
            let (ds, r2) := takeDigits (d :: r)
            (e :: s :: ds, r2)
          else if (e = 'e' ∨ e = 'E') ∧ s.isDigit then
            let (ds, r2) := takeDigits (s :: d :: r)
            (e :: ds, r2)
          else ([], cs3)
        | e :: s :: r =>
          if (e = 'e' ∨ e = 'E') ∧ s.isDigit then
            let (ds, r2) := takeDigits (s :: r)
            (e :: ds, r2)
          else ([], cs3)
        | _ => ([], cs3)
      .ok (String.mk (sign ++ ipart ++ fpart ++ epart), cs4)

/-- Insert into an object field list with Python `dict` semantics: a
duplicate key keeps its first position but takes the last value. -/
def objInsert (fs : List (String × Json)) (k : String) (v : Json) : List (String × Json) :=
  match fs with
  | [] => [(k, v)]
  | (k0, v0) :: rest => if k0 = k then (k0, v) :: rest else (k0, v0) :: objInsert rest k v

mutual

/-- Parse one JSON value at the head of `cs` (leading whitespace already
skipped).  `fuel` only bounds recursion depth, mirroring CPython's own
recursion limit; it is chosen large enough to be unreachable for the
inputs of interest. -/
def parseValue (fuel : Nat) (cs : List Char) : Except String (Json × List Char) :=
  match fuel with
  | 0 => .error "Nesting limit exceeded"
  | fuel + 1 =>
    match cs with
    | [] => .error "Expecting value"
    | c :: rest =>
      if c = '\"' then
        match parseStringBody [] rest with
        | .ok (s, r) => .ok (.str s, r)
        | .error e => .error e
      else if c = lcurly then parseObjectBody fuel (skipWs rest) []
      else if c = '[' then parseArrayBody fuel (skipWs rest) []
      else if c = 't' then
        match dropLit ['r', 'u', 'e'] rest with
        | some r => .ok (.bool true, r)
        | none => .error "Expecting value"
      else if c = 'f' then
        match dropLit ['a', 'l', 's', 'e'] rest with
        | some r => .ok (.bool false, r)
        | none => .error "Expecting value"
      else if c = 'n' then
        match dropLit ['u', 'l', 'l'] rest with
        | some r => .ok (.null, r)
        | none => .error "Expecting value"
      else if c = 'N' then
        match dropLit ['a', 'N'] rest with
        | some r => .ok (.num "NaN", r)
        | none => .error "Expecting value"
      else if c = 'I' then
        match dropLit ['n', 'f', 'i', 'n', 'i', 't', 'y'] rest with
        | some r => .ok (.num "Infinity", r)
        | none => .error "Expecting value"
      else if c = '-' then
        match dropLit ['I', 'n', 'f', 'i', 'n', 'i', 't', 'y'] rest with
        | some r => .ok (.num "-Infinity", r)
        | none =>
          match parseNumber cs with
          | .ok (lex, r) => .ok (.num lex, r)
          | .error e => .error e
      else if c.isDigit then
        match parseNumber cs with
        | .ok (lex, r) => .ok (.num lex, r)
        | .error e => .error e
      else .error "Expecting value"

/-- Members of an object, called just after the opening brace or just
after a comma (whitespace skipped).  `acc` holds the members seen so far;
a closing brace is accepted immediately only for the empty object, as in
CPython (no trailing comma). -/
def parseObjectBody (fuel : Nat) (cs : List Char) (acc : List (String × Json)) :
    Except String (Json × List Char) :=
  match fuel with
  | 0 => .error "Nesting limit exceeded"
  | fuel + 1 =>
    match cs with
    | [] => .error "Expecting property name enclosed in double quotes"
    | c :: rest =>
      if c = rcurly then
        if acc.isEmpty then .ok (.obj [], rest)
        else .error "Expecting property name enclosed in double quotes"
      else if c = '\"' then
        match parseStringBody [] rest with
        | .error e => .error e
        | .ok (key, r1) =>
          match skipWs r1 with
          | ':' :: r2 =>
            match parseValue fuel (skipWs r2) with
            | .error e => .error e
            | .ok (v, r3) =>
              let acc2 := objInsert acc key v
              match skipWs r3 with
              | [] => .error "Expecting comma delimiter"
              | c2 :: r4 =>
                if c2 = ',' then parseObjectBody fuel (skipWs r4) acc2
                else if c2 = rcurly then .ok (.obj acc2, r4)
                else .error "Expecting comma delimiter"
          | _ => .error "Expecting colon delimiter"
      else .error "Expecting property name enclosed in double quotes"

/-- Items of an array, called just after the opening bracket or just
after a comma (whitespace skipped). -/
def parseArrayBody (fuel : Nat) (cs : List Char) (acc : List Json) :
    Except String (Json × List Char) :=
  match fuel with
  | 0 => .error "Nesting limit exceeded"
  | fuel + 1 =>
    match cs with
    | [] => .error "Expecting value"
    | c :: rest =>
      if c = ']' then
        if acc.isEmpty then .ok (.arr [], rest)
        else .error "Expecting value"
      else
        match parseValue fuel cs with
        | .error e => .error e
        | .ok (v, r1) =>
          match skipWs r1 with
          | [] => .error "Expecting comma delimiter"
          | c2 :: r2 =>
            if c2 = ',' then parseArrayBody fuel (skipWs r2) (acc ++ [v])
            else if c2 = ']' then .ok (.arr (acc ++ [v]), r2)
            else .error "Expecting comma delimiter"

end

/-- Python's `json.loads`: skip surrounding whitespace, parse exactly one
value, reject trailing data. -/
def json_loads (s : String) : Except String Json :=
  match parseValue (2 * s.data.length + 2) (skipWs s.data) with
  | .error e => .error e
  | .ok (v, rest) =>
    match skipWs rest with
    | [] => .ok v
    | _ => .error "Extra data"

/-- Python `str.find` for a single-character needle: index of the first
occurrence, `-1` when absent. -/
def pyFind (cs : List Char) (c : Char) : Int :=
  match cs with
  | [] => -1
  | x :: xs =>
    if x = c then 0
    else
      let r := pyFind xs c
      if r = -1 then -1 else r + 1

/-- Python `str.rfind` for a single-character needle: index of the last
occurrence, `-1` when absent. -/
def pyRfind (cs : List Char) (c : Char) : Int :=
  match cs with
  | [] => -1
  | x :: xs =>
    let r := pyRfind xs c
    if r ≠ -1 then r + 1
    else if x = c then 0 else -1

/-- Python slice `s[a:b]` for non-negative bounds (the only bounds the
normaliser produces). -/
def pySlice (cs : List Char) (a b : Nat) : List Char :=
  (cs.drop a).take (b - a)

/-- The `.replace(chr(10), backslash-n)` pre-pass of the normaliser: each
raw newline becomes the two-character sequence backslash `n`. -/
def escapeNewlines : List Char → List Char
  | [] => []
  | c :: cs =>
    if c = '\n' then '\\' :: 'n' :: escapeNewlines cs
    else c :: escapeNewlines cs

/-- The `.replace(chr(13), empty)` pass: delete every carriage return. -/
def stripCarriageReturns : List Char → List Char
  | [] => []
  | c :: cs =>
    if c = '\r' then stripCarriageReturns cs
    else c :: stripCarriageReturns cs

/-- The sanitisation applied to the candidate substring, in source order:
escape newlines, then delete carriage returns. -/
def sanitize_json_str (cs : List Char) : List Char :=
  stripCarriageReturns (escapeNewlines cs)

/-- The candidate JSON document `ask_claude_json` extracts from the raw
reply: the slice from the first left brace to one past the last right
brace, sanitised. -/
def json_candidate (raw : String) : String :=
  String.mk (sanitize_json_str
    (pySlice raw.data (pyFind raw.data lcurly).toNat (pyRfind raw.data rcurly + 1).toNat))

/-- The fallback dict returned when no left brace is found in the reply. -/
def formatInvalidResult (raw_text : String) : Json :=
  .obj [("final_answer_summary", .str "Error: AI response format invalid."),
        ("detailed_logic", .str raw_text),
        ("chart_data", .obj [])]

/-- The dict built by the `except` handler: summary `System Error`,
detail text embedded in the logic field. -/
def systemErrorResult (e : String) : Json :=
  .obj [("final_answer_summary", .str "System Error"),
        ("detailed_logic", .str ("Technical Detail: " ++ e)),
        ("chart_data", .obj [])]

/-- The response-normalisation tail of `ask_claude_json`, as a function of
the raw reply text: locate the candidate, sanitise, parse; a parse
exception is caught by the surrounding handler and becomes the
system-error dict; when no candidate is found the format-invalid dict
carries the raw text. -/
def ask_claude_json_normalize (raw_text : String) : Json :=
  let start_idx := pyFind raw_text.data lcurly
  let end_idx := pyRfind raw_text.data rcurly + 1
  if start_idx ≠ -1 ∧ end_idx ≠ -1 then
    match json_loads (json_candidate raw_text) with
    | .ok parsed => parsed
    | .error e => systemErrorResult e
  else
    formatInvalidResult raw_text

/-- `ask_claude_json` from the model call onward: the call either yields
the raw reply text or raises, and the single `except` clause converts any
exception into the system-error dict. -/
def ask_claude_json (modelCall : Except String String) : Json :=
  match modelCall with
  | .ok raw_text => ask_claude_json_normalize raw_text
  | .error e => systemErrorResult e

/-- Python `dict.get` on an object-shaped JSON value. -/
def lookupField : List (String × Json) → String → Option Json
  | [], _ => none
  | (k, v) :: rest, key => if k = key then some v else lookupField rest key

/-- Field access on a JSON value, `none` off objects or missing keys. -/
def jsonGet (j : Json) (key : String) : Option Json :=
  match j with
  | .obj fs => lookupField fs key
  | _ => none

/-- The strict-mode instruction block (`safety_instruction` when
`is_strict_mode` holds), transcribed from the source literal. -/
def auditor_mode_instruction : String :=
  "\n        === AUDITOR MODE ACTIVE (STRICT) ===\n        1. VALIDATE DATA: Scan the \x27Sales Data\x27 and \x27Plan Rules\x27.\n        2. MISSING DATA CHECK: If the Plan requires a variable and it is missing, STOP.\n           - Return JSON: \x7b\"final_answer_summary\": \"⚠️ Error: Missing Data [Variable Name].\", \"detailed_logic\": \"\", \"chart_data\": \x7b\x7d\x7d\n        "

/-- The lenient-mode instruction block (`safety_instruction` otherwise). -/
def demo_mode_instruction : String :=
  "=== DEMO MODE ===\nAssume standard defaults if minor details are missing."

/-- Segment of the prompt f-string before the instruction block. -/
def prompt_seg0 : String :=
  "\n    You are an Expert Incentive Compensation Analyst.\n    "

/-- Segment between the instruction block and the plan rules. -/
def prompt_seg1 : String :=
  "\n\n    === PLAN RULES ===\n    "

/-- Segment between the plan rules and the sales data. -/
def prompt_seg2 : String :=
  "\n\n    === SALES DATA ===\n    "

/-- Segment between the sales data and the question. -/
def prompt_seg3 : String :=
  "\n\n    === USER QUESTION ===\n    "

/-- Trailing segment: the response-format / JSON-schema description. -/
def prompt_seg4 : String :=
  "\n\n    === RESPONSE FORMAT (CRITICAL) ===\n    You must respond in a valid JSON object format.\n    \n    RULES FOR JSON SAFETY:\n    1. Do NOT use real line breaks (newlines) inside strings. Use the literal characters \"\\n\" instead.\n    2. Escape all double quotes inside strings (e.g., \\\").\n    3. Do not add any text outside the JSON object.\n\n    Structure:\n    \x7b\n        \"final_answer_summary\": \"Summary text here.\",\n        \"detailed_logic\": \"1. Step One...\\n2. Step Two...\",\n        \"chart_data\": \x7b \"Label\": 100 \x7d\n    \x7d\n    "

/-- The prompt assembled by `ask_claude_json` before the model call: the
f-string interpolating the selected instruction block, the plan rules,
the sales data and the question, with the schema description at the
end. -/
def build_prompt (sales_context plan_rules_text question : String)
    (is_strict_mode : Bool) : String :=
  let safety_instruction :=
    if is_strict_mode then auditor_mode_instruction else demo_mode_instruction
  prompt_seg0 ++ safety_instruction ++ prompt_seg1 ++ plan_rules_text ++
    prompt_seg2 ++ sales_context ++ prompt_seg3 ++ question ++ prompt_seg4

/-- One element of `st.session_state.history`: the dict
`\x7b"q": question, "a": result\x7d`. -/
structure HistoryEntry where
  q : String
  a : Json

/-- `st.session_state.history.insert(0, ...)`: the new entry is placed at
position 0, in front of the existing entries. -/
def history_insert (history : List HistoryEntry) (question : String)
    (result : Json) : List HistoryEntry :=
  ⟨question, result⟩ :: history

/-- Inverse of the newline pre-escaping, used only to describe inputs:
it rewrites each two-character `\n` escape into a raw line break, turning
a well-formed JSON text into the same text with unescaped literal line
breaks inside its string values. -/
def unescapeNewlines : List Char → List Char
  | [] => []
  | [c] => [c]
  | c1 :: c2 :: rest =>
    if c1 = '\\' ∧ c2 = 'n' then '\n' :: unescapeNewlines rest
    else c1 :: unescapeNewlines (c2 :: rest)

section NormalizerLemmas

/-- `find` misses exactly when the character is absent. -/
theorem pyFind_eq_neg_one {c : Char} {cs : List Char} (h : c ∉ cs) :
    pyFind cs c = -1 := by
  induction cs with
  | nil => rfl
  | cons a as ih =>
    simp only [List.mem_cons, not_or] at h
    simp [pyFind, ih h.2, Ne.symm h.1]

/-- A present character gives a non-negative `find` result. -/
theorem pyFind_nonneg_of_mem {c : Char} {cs : List Char} (h : c ∈ cs) :
    0 ≤ pyFind cs c := by
  induction cs with
  | nil => cases h
  | cons a as ih =>
    by_cases hac : a = c
    · simp [pyFind, hac]
    · have hmem : c ∈ as := by
        rcases List.mem_cons.mp h with h1 | h1
        · exact absurd h1.symm hac
        · exact h1
      have h0 := ih hmem
      simp only [pyFind, if_neg hac]
      split <;> omega

/-- `find` on `xs ++ c :: ys` with `c` absent from `xs` lands exactly on
the junction. -/
theorem pyFind_append_cons {c : Char} (xs ys : List Char) (h : c ∉ xs) :
    pyFind (xs ++ c :: ys) c = (xs.length : Int) := by
  induction xs with
  | nil => simp [pyFind]
  | cons a as ih =>
    simp only [List.mem_cons, not_or] at h
    have hr := ih h.2
    simp only [List.cons_append, pyFind, List.append_eq, hr,
      if_neg (Ne.symm h.1), if_neg (show ¬ ((as.length : Int)) = -1 by omega),
      List.length_cons]
    push_cast
    ring

/-- `rfind` misses exactly when the character is absent. -/
theorem pyRfind_eq_neg_one {c : Char} {cs : List Char} (h : c ∉ cs) :
    pyRfind cs c = -1 := by
  induction cs with
  | nil => rfl
  | cons a as ih =>
    simp only [List.mem_cons, not_or] at h
    simp [pyRfind, ih h.2, Ne.symm h.1]

/-- A suffix without the needle does not change `rfind`. -/
theorem pyRfind_append_right {c : Char} (xs : List Char) {ys : List Char}
    (h : c ∉ ys) : pyRfind (xs ++ ys) c = pyRfind xs c := by
  induction xs with
  | nil => simp [pyRfind_eq_neg_one h, pyRfind]
  | cons a as ih => simp only [List.cons_append, pyRfind, List.append_eq, ih]

/-- `rfind` on `xs ++ [c]` lands on the final element. -/
theorem pyRfind_append_singleton (xs : List Char) (c : Char) :
    pyRfind (xs ++ [c]) c = (xs.length : Int) := by
  induction xs with
  | nil => simp [pyRfind]
  | cons a as ih =>
    simp only [List.cons_append, pyRfind, List.append_eq, ih,
      if_pos (show ((as.length : Int)) ≠ -1 by omega), List.length_cons]
    push_cast
    ring

/-- `rfind` never returns below `-1`, hence `rfind + 1` is never `-1`. -/
theorem pyRfind_ge_neg_one (cs : List Char) (c : Char) :
    -1 ≤ pyRfind cs c := by
  induction cs with
  | nil => simp [pyRfind]
  | cons a as ih =>
    simp only [pyRfind]
    split
    · omega
    · split <;> omega

/-- An empty upper bound slices to the empty list. -/
theorem pySlice_zero (cs : List Char) (a : Nat) : pySlice cs a 0 = [] := by
  simp [pySlice]

/-- Newline escaping is the identity on newline-free text. -/
theorem escapeNewlines_eq_self {cs : List Char} (h : ('\n' : Char) ∉ cs) :
    escapeNewlines cs = cs := by
  induction cs with
  | nil => rfl
  | cons a as ih =>
    simp only [List.mem_cons, not_or] at h
    simp [escapeNewlines, ih h.2, Ne.symm h.1]

/-- Carriage-return deletion is the identity on CR-free text. -/
theorem stripCarriageReturns_eq_self {cs : List Char} (h : ('\r' : Char) ∉ cs) :
    stripCarriageReturns cs = cs := by
  induction cs with
  | nil => rfl
  | cons a as ih =>
    simp only [List.mem_cons, not_or] at h
    simp [stripCarriageReturns, ih h.2, Ne.symm h.1]

/-- The sanitiser is the identity on text without newlines or CRs. -/
theorem sanitize_json_str_eq_self {cs : List Char}
    (hnl : ('\n' : Char) ∉ cs) (hcr : ('\r' : Char) ∉ cs) :
    sanitize_json_str cs = cs := by
  rw [sanitize_json_str, escapeNewlines_eq_self hnl,
    stripCarriageReturns_eq_self hcr]

/-- Re-escaping the raw newlines produced by `unescapeNewlines` restores
the original newline-free text. -/
theorem escapeNewlines_unescapeNewlines {cs : List Char}
    (h : ('\n' : Char) ∉ cs) :
    escapeNewlines (unescapeNewlines cs) = cs := by
  induction cs using unescapeNewlines.induct with
  | case1 => rfl
  | case2 c =>
    simp only [List.mem_cons, not_or] at h
    simp [unescapeNewlines, escapeNewlines, Ne.symm h.1]
  | case3 c1 c2 rest hif ih =>
    obtain ⟨rfl, rfl⟩ := hif
    simp only [List.mem_cons, not_or] at h
    simp [unescapeNewlines, escapeNewlines, ih h.2.2]
  | case4 c1 c2 rest hif ih =>
    simp only [List.mem_cons, not_or] at h
    have h2 : ('\n' : Char) ∉ c2 :: rest := by
      simp only [List.mem_cons, not_or]
      exact ⟨h.2.1, h.2.2⟩
    simp [unescapeNewlines, escapeNewlines, hif, ih h2, Ne.symm h.1]

/-- Values with different field contents are different. -/
theorem ne_of_jsonGet_ne {a b : Json} (k : String)
    (h : jsonGet a k ≠ jsonGet b k) : a ≠ b :=
  fun e => h (by rw [e])

/-- When a left brace is present the guard holds and the normaliser is
the parse of the candidate, with the `except` handler around it. -/
theorem normalize_of_found {raw : String} (h : pyFind raw.data lcurly ≠ -1) :
    ask_claude_json_normalize raw =
      match json_loads (json_candidate raw) with
      | .ok parsed => parsed
      | .error e => systemErrorResult e := by
  have h2 : pyRfind raw.data rcurly + 1 ≠ -1 := by
    have := pyRfind_ge_neg_one raw.data rcurly
    omega
  simp only [ask_claude_json_normalize]
  rw [if_pos ⟨h, h2⟩]

/-- When no left brace is present the normaliser takes the
format-invalid branch. -/
theorem normalize_of_not_found {raw : String}
    (h : pyFind raw.data lcurly = -1) :
    ask_claude_json_normalize raw = formatInvalidResult raw := by
  simp only [ask_claude_json_normalize]
  rw [if_neg]
  simp [h]

/-- With no right brace anywhere, the candidate is the empty string:
`end_idx` is `0` and the Python slice `raw[start:0]` is empty. -/
theorem json_candidate_of_no_rcurly {raw : String}
    (h : rcurly ∉ raw.data) : json_candidate raw = "" := by
  unfold json_candidate
  rw [pyRfind_eq_neg_one h]
  simp [pySlice_zero, sanitize_json_str, escapeNewlines, stripCarriageReturns]

end NormalizerLemmas

/-- C5: for every raw model reply containing no left-brace character,
`ask_claude_json` returns the format-invalid fallback, whose logic field
is the original reply text verbatim and whose summary is the flagged
format-invalid message. -/
theorem claim5_no_brace_fallback (raw : String) (h : lcurly ∉ raw.data) :
    ask_claude_json_normalize raw = formatInvalidResult raw ∧
    jsonGet (ask_claude_json_normalize raw) "detailed_logic" =
      some (.str raw) ∧
    jsonGet (ask_claude_json_normalize raw) "final_answer_summary" =
      some (.str "Error: AI response format invalid.") := by
  have hmain := normalize_of_not_found (pyFind_eq_neg_one h)
  refine ⟨hmain, ?_, ?_⟩ <;> rw [hmain] <;> rfl

/-- C5 witness: the spec's own example reply `I cannot comply.`. -/
theorem claim5_witness :
    lcurly ∉ "I cannot comply.".data ∧
    ask_claude_json_normalize "I cannot comply." =
      formatInvalidResult "I cannot comply." ∧
    jsonGet (ask_claude_json_normalize "I cannot comply.") "detailed_logic" =
      some (.str "I cannot comply.") :=
  ⟨by decide, (claim5_no_brace_fallback "I cannot comply." (by decide)).1,
    (claim5_no_brace_fallback "I cannot comply." (by decide)).2.1⟩

/-- C6: a reply with an unterminated JSON object (a left brace but no
closing brace anywhere) does not escape the handler: `ask_claude_json`
returns a fallback record (the generic system-error one, since the empty
candidate fails to parse). -/
theorem claim6_unterminated_fallback (raw : String) (h1 : lcurly ∈ raw.data)
    (h2 : rcurly ∉ raw.data) :
    ask_claude_json_normalize raw = systemErrorResult "Expecting value" ∧
    jsonGet (ask_claude_json_normalize raw) "final_answer_summary" =
      some (.str "System Error") := by
  have hfind : pyFind raw.data lcurly ≠ -1 := by
    have := pyFind_nonneg_of_mem h1
    omega
  have hmain : ask_claude_json_normalize raw =
      systemErrorResult "Expecting value" := by
    rw [normalize_of_found hfind, json_candidate_of_no_rcurly h2]
    rfl
  exact ⟨hmain, by rw [hmain]; rfl⟩

/-- C6 witness: the truncated reply consisting of a left brace and
prose, with no closing brace. -/
theorem claim6_witness :
    lcurly ∈ (String.mk (lcurly :: "abc".data)).data ∧
    rcurly ∉ (String.mk (lcurly :: "abc".data)).data ∧
    ask_claude_json_normalize (String.mk (lcurly :: "abc".data)) =
      systemErrorResult "Expecting value" :=
  ⟨by decide, by decide,
    (claim6_unterminated_fallback (String.mk (lcurly :: "abc".data))
      (by decide) (by decide)).1⟩

/-- C7: the assembled prompt is, in order, the selected instruction
block, the plan rules, the sales data, the question, and the trailing
JSON schema description; in strict mode the auditor-mode block appears
verbatim, otherwise the demo-mode block does. -/
theorem claim7_prompt_assembly (sales_context plan_rules_text question : String) :
    build_prompt sales_context plan_rules_text question true =
      prompt_seg0 ++ auditor_mode_instruction ++ prompt_seg1 ++ plan_rules_text ++
        prompt_seg2 ++ sales_context ++ prompt_seg3 ++ question ++ prompt_seg4 ∧
    (∃ front back : String,
      build_prompt sales_context plan_rules_text question true =
        front ++ auditor_mode_instruction ++ back) ∧
    build_prompt sales_context plan_rules_text question false =
      prompt_seg0 ++ demo_mode_instruction ++ prompt_seg1 ++ plan_rules_text ++
        prompt_seg2 ++ sales_context ++ prompt_seg3 ++ question ++ prompt_seg4 := by
  refine ⟨rfl,
    ⟨prompt_seg0,
      prompt_seg1 ++ plan_rules_text ++ prompt_seg2 ++ sales_context ++
        prompt_seg3 ++ question ++ prompt_seg4, ?_⟩, rfl⟩
  simp [build_prompt, String.append_assoc]

/-- C8: a failing model invocation is converted into the record with
summary exactly `System Error` and the exception detail embedded in the
logic field; nothing is raised to the caller. -/
theorem claim8_system_error (e : String) :
    ask_claude_json (.error e) = systemErrorResult e ∧
    jsonGet (ask_claude_json (.error e)) "final_answer_summary" =
      some (.str "System Error") ∧
    jsonGet (ask_claude_json (.error e)) "detailed_logic" =
      some (.str ("Technical Detail: " ++ e)) :=
  ⟨rfl, rfl, rfl⟩

/-- C9: each processed query, on every path of `ask_claude_json`
(success or failure of the model call), prepends exactly one history
entry carrying the question and the result record at position 0, with
the previous entries unchanged behind it. -/
theorem claim9_history (history : List HistoryEntry) (question : String)
    (modelCall : Except String String) :
    history_insert history question (ask_claude_json modelCall) =
      ⟨question, ask_claude_json modelCall⟩ :: history ∧
    (history_insert history question (ask_claude_json modelCall)).length =
      history.length + 1 ∧
    (history_insert history question (ask_claude_json modelCall)).head? =
      some ⟨question, ask_claude_json modelCall⟩ ∧
    (history_insert history question (ask_claude_json modelCall)).tail =
      history :=
  ⟨rfl, rfl, rfl, rfl⟩

/-- C10: the guard value `rfind + 1` can never equal `-1`, so a reply
containing a left brace never reaches the format-invalid branch: the
result always comes from the parse of the candidate, and with no right
brace at all the candidate is empty and the failed parse is reported as
the generic system-error record rather than the format-invalid record
carrying the raw text. -/
theorem claim10_guard_never_minus_one (raw : String) :
    pyRfind raw.data rcurly + 1 ≠ -1 ∧
    (lcurly ∈ raw.data →
      (ask_claude_json_normalize raw =
        match json_loads (json_candidate raw) with
        | .ok parsed => parsed
        | .error e => systemErrorResult e) ∧
      (rcurly ∉ raw.data →
        json_candidate raw = "" ∧
        ask_claude_json_normalize raw = systemErrorResult "Expecting value" ∧
        ask_claude_json_normalize raw ≠ formatInvalidResult raw)) := by
  constructor
  · have := pyRfind_ge_neg_one raw.data rcurly
    omega
  · intro h1
    have hfind : pyFind raw.data lcurly ≠ -1 := by
      have := pyFind_nonneg_of_mem h1
      omega
    refine ⟨normalize_of_found hfind, ?_⟩
    intro h2
    have hcand := json_candidate_of_no_rcurly h2
    have hmain : ask_claude_json_normalize raw =
        systemErrorResult "Expecting value" := by
      rw [normalize_of_found hfind, hcand]
      rfl
    refine ⟨hcand, hmain, ?_⟩
    rw [hmain]
    apply ne_of_jsonGet_ne "final_answer_summary"
    intro hx
    rw [show jsonGet (systemErrorResult "Expecting value")
          "final_answer_summary" = some (.str "System Error") from rfl,
      show jsonGet (formatInvalidResult raw) "final_answer_summary" =
          some (.str "Error: AI response format invalid.") from rfl] at hx
    have := Option.some.inj hx
    exact absurd (Json.str.inj this) (by decide)

/-- C10 witness: a reply with a left brace and no right brace lands in
the system-error branch with an empty candidate. -/
theorem claim10_witness :
    pyRfind (String.mk (lcurly :: "xyz".data)).data rcurly + 1 ≠ -1 ∧
    json_candidate (String.mk (lcurly :: "xyz".data)) = "" ∧
    ask_claude_json_normalize (String.mk (lcurly :: "xyz".data)) =
      systemErrorResult "Expecting value" :=
  ⟨(claim10_guard_never_minus_one (String.mk (lcurly :: "xyz".data))).1,
    (((claim10_guard_never_minus_one (String.mk (lcurly :: "xyz".data))).2
      (by decide)).2 (by decide)).1,
    (((claim10_guard_never_minus_one (String.mk (lcurly :: "xyz".data))).2
      (by decide)).2 (by decide)).2.1⟩

/-- C2 counterexample: the reply `\x7b\x7d` parses successfully to the
empty object, which `ask_claude_json` returns as-is: all three expected
fields are missing from the returned record rather than defaulted to
empty values. -/
theorem claim2_counterexample :
    ask_claude_json (.ok (String.mk [lcurly, rcurly])) = Json.obj [] ∧
    jsonGet (Json.obj []) "final_answer_summary" = none ∧
    jsonGet (Json.obj []) "detailed_logic" = none ∧
    jsonGet (Json.obj []) "chart_data" = none :=
  ⟨rfl, rfl, rfl, rfl⟩

/-- C2 amended: `ask_claude_json` is total at its boundary — a raised
exception becomes the system-error record, a reply without a left brace
becomes the format-invalid record, a candidate that fails to parse
becomes the system-error record — but on the successful-parse path the
parsed object is returned as-is, with no coercion: fields missing from
it stay missing (lookups yield `none`), they are not defaulted to
empty. -/
theorem claim2_amended_total_no_defaulting (e raw : String) (v : Json) :
    ask_claude_json (.error e) = systemErrorResult e ∧
    (pyFind raw.data lcurly = -1 →
      ask_claude_json (.ok raw) = formatInvalidResult raw) ∧
    (∀ msg, json_loads (json_candidate raw) = .error msg →
      pyFind raw.data lcurly ≠ -1 →
      ask_claude_json (.ok raw) = systemErrorResult msg) ∧
    (json_loads (json_candidate raw) = .ok v →
      pyFind raw.data lcurly ≠ -1 →
      ask_claude_json (.ok raw) = v) := by
  refine ⟨rfl, ?_, ?_, ?_⟩
  · intro h
    exact normalize_of_not_found h
  · intro msg hmsg h
    show ask_claude_json_normalize raw = systemErrorResult msg
    rw [normalize_of_found h, hmsg]
  · intro hv h
    show ask_claude_json_normalize raw = v
    rw [normalize_of_found h, hv]

/-- C2 witness: each of the four paths at a concrete input; in
particular a successful parse is returned unchanged. -/
theorem claim2_witness :
    ask_claude_json (.error "boom") = systemErrorResult "boom" ∧
    ask_claude_json (.ok "no json here") = formatInvalidResult "no json here" ∧
    ask_claude_json (.ok (String.mk (lcurly :: "oops".data))) =
      systemErrorResult "Expecting value" ∧
    ask_claude_json
        (.ok (String.mk (lcurly :: ("\"a\":1".data ++ [rcurly])))) =
      Json.obj [("a", Json.num "1")] :=
  ⟨(claim2_amended_total_no_defaulting "boom" "no json here" Json.null).1,
    (claim2_amended_total_no_defaulting "boom" "no json here" Json.null).2.1
      (by decide),
    (claim2_amended_total_no_defaulting "boom"
        (String.mk (lcurly :: "oops".data)) Json.null).2.2.1
      "Expecting value" (by rfl) (by decide),
    (claim2_amended_total_no_defaulting "boom"
        (String.mk (lcurly :: ("\"a\":1".data ++ [rcurly])))
        (Json.obj [("a", Json.num "1")])).2.2.2 (by rfl) (by decide)⟩

/-- C3 counterexample: the reply `\x7bx\x7d` contains a candidate whose
parse fails, yet the fallback's logic field carries the exception detail
text, not the original raw reply verbatim as the claim states. -/
theorem claim3_counterexample :
    ask_claude_json_normalize (String.mk (lcurly :: ('x' :: [rcurly]))) =
      systemErrorResult "Expecting property name enclosed in double quotes" ∧
    jsonGet (ask_claude_json_normalize (String.mk (lcurly :: ('x' :: [rcurly]))))
        "detailed_logic" =
      some (.str
        "Technical Detail: Expecting property name enclosed in double quotes") ∧
    "Technical Detail: Expecting property name enclosed in double quotes" ≠
      String.mk (lcurly :: ('x' :: [rcurly])) :=
  ⟨rfl, rfl, by decide⟩

/-- C3 amended: when no candidate JSON document is found (no left brace)
the fallback flags the format-invalid error and its logic field carries
the raw reply verbatim; when a candidate is found but its parse fails,
the fallback has summary `System Error` and its logic field carries the
exception detail, not the raw reply. -/
theorem claim3_amended_fallback_content (raw : String) :
    (pyFind raw.data lcurly = -1 →
      ask_claude_json_normalize raw = formatInvalidResult raw ∧
      jsonGet (ask_claude_json_normalize raw) "detailed_logic" =
        some (.str raw) ∧
      jsonGet (ask_claude_json_normalize raw) "final_answer_summary" =
        some (.str "Error: AI response format invalid.")) ∧
    (∀ msg, json_loads (json_candidate raw) = .error msg →
      pyFind raw.data lcurly ≠ -1 →
      ask_claude_json_normalize raw = systemErrorResult msg ∧
      jsonGet (ask_claude_json_normalize raw) "final_answer_summary" =
        some (.str "System Error") ∧
      jsonGet (ask_claude_json_normalize raw) "detailed_logic" =
        some (.str ("Technical Detail: " ++ msg))) := by
  constructor
  · intro h
    have hmain := normalize_of_not_found h
    refine ⟨hmain, ?_, ?_⟩ <;> rw [hmain] <;> rfl
  · intro msg hmsg h
    have hmain : ask_claude_json_normalize raw = systemErrorResult msg := by
      rw [normalize_of_found h, hmsg]
    refine ⟨hmain, ?_, ?_⟩ <;> rw [hmain] <;> rfl

/-- C3 witness: both fallback shapes at concrete inputs. -/
theorem claim3_witness :
    (ask_claude_json_normalize "I refuse." = formatInvalidResult "I refuse." ∧
      jsonGet (ask_claude_json_normalize "I refuse.") "detailed_logic" =
        some (.str "I refuse.")) ∧
    (ask_claude_json_normalize (String.mk (lcurly :: ('!' :: [rcurly]))) =
      systemErrorResult "Expecting property name enclosed in double quotes" ∧
      jsonGet (ask_claude_json_normalize
          (String.mk (lcurly :: ('!' :: [rcurly])))) "final_answer_summary" =
        some (.str "System Error")) :=
  ⟨⟨((claim3_amended_fallback_content "I refuse.").1 (by decide)).1,
      ((claim3_amended_fallback_content "I refuse.").1 (by decide)).2.1⟩,
    ⟨((claim3_amended_fallback_content
          (String.mk (lcurly :: ('!' :: [rcurly])))).2
        "Expecting property name enclosed in double quotes" (by rfl)
        (by decide)).1,
      (((claim3_amended_fallback_content
          (String.mk (lcurly :: ('!' :: [rcurly])))).2
        "Expecting property name enclosed in double quotes" (by rfl)
        (by decide)).2.1)⟩⟩

/-- C4: a JSON text that is well formed except for raw line breaks
inside its string values still parses under the permissive pre-pass.
Such a text is exactly `unescapeNewlines t` for a well-formed newline-free
text `t`; the pre-escaping restores `t`, so the permissive parse succeeds
and yields the same value. -/
theorem claim4_permissive_raw_newlines (t : String) (v : Json)
    (hparse : json_loads t = .ok v)
    (hnl : ('\n' : Char) ∉ t.data) (hcr : ('\r' : Char) ∉ t.data) :
    json_loads (String.mk (sanitize_json_str (unescapeNewlines t.data))) =
      .ok v := by
  have hs : sanitize_json_str (unescapeNewlines t.data) = t.data := by
    rw [sanitize_json_str, escapeNewlines_unescapeNewlines hnl,
      stripCarriageReturns_eq_self hcr]
  rw [hs]
  exact hparse

/-- C4 witness: the object with a string value containing an escaped
newline; its unescaped variant (a raw line break inside the string
value) still parses to the same object. -/
theorem claim4_witness :
    json_loads (String.mk (lcurly :: ("\"a\": \"x\\ny\"".data ++ [rcurly]))) =
      .ok (Json.obj [("a", Json.str "x\ny")]) ∧
    json_loads (String.mk (sanitize_json_str (unescapeNewlines
        (String.mk (lcurly :: ("\"a\": \"x\\ny\"".data ++ [rcurly]))).data))) =
      .ok (Json.obj [("a", Json.str "x\ny")]) :=
  ⟨by rfl,
    claim4_permissive_raw_newlines
      (String.mk (lcurly :: ("\"a\": \"x\\ny\"".data ++ [rcurly])))
      (Json.obj [("a", Json.str "x\ny")]) (by rfl) (by decide) (by decide)⟩

/-- C1 counterexample: the reply consisting exactly of the well-formed
JSON object `\x7b` newline `\x7d` (whose field mapping is empty).  The
pre-escaping turns the inter-token newline into a literal backslash-n
outside any string, the parse fails, and the normaliser returns the
system-error record instead of the object's fields. -/
theorem claim1_counterexample :
    json_loads (String.mk [lcurly, '\n', rcurly]) = .ok (Json.obj []) ∧
    ask_claude_json_normalize (String.mk [lcurly, '\n', rcurly]) =
      systemErrorResult "Expecting property name enclosed in double quotes" ∧
    ask_claude_json_normalize (String.mk [lcurly, '\n', rcurly]) ≠
      Json.obj [] := by
  refine ⟨rfl, rfl, ?_⟩
  apply ne_of_jsonGet_ne "final_answer_summary"
  intro hx
  rw [show jsonGet (ask_claude_json_normalize
        (String.mk [lcurly, '\n', rcurly])) "final_answer_summary" =
      some (.str "System Error") from rfl,
    show jsonGet (Json.obj []) "final_answer_summary" = none from rfl] at hx
  exact Option.noConfusion hx

/-- C1 amended: for a reply made of prose, then a well-formed JSON
object containing no raw line breaks or carriage returns, then prose —
where the leading prose contains no left brace and the trailing prose no
right brace — the normaliser returns exactly the parsed object's fields
(the mapping parsed from the substring between the first left brace and
one past the last right brace). -/
theorem claim1_amended_extraction (pre mid post : List Char)
    (fields : List (String × Json))
    (hpre : lcurly ∉ pre) (hpost : rcurly ∉ post)
    (hnl : ('\n' : Char) ∉ lcurly :: (mid ++ [rcurly]))
    (hcr : ('\r' : Char) ∉ lcurly :: (mid ++ [rcurly]))
    (hparse : json_loads (String.mk (lcurly :: (mid ++ [rcurly]))) =
      .ok (Json.obj fields)) :
    ask_claude_json_normalize
        (String.mk (pre ++ (lcurly :: (mid ++ [rcurly])) ++ post)) =
      Json.obj fields := by
  have hdata : (String.mk (pre ++ (lcurly :: (mid ++ [rcurly])) ++ post)).data
      = pre ++ (lcurly :: (mid ++ [rcurly])) ++ post := rfl
  have hfind : pyFind (pre ++ (lcurly :: (mid ++ [rcurly])) ++ post) lcurly
      = (pre.length : Int) := by
    rw [show pre ++ (lcurly :: (mid ++ [rcurly])) ++ post
        = pre ++ lcurly :: ((mid ++ [rcurly]) ++ post) by
      simp [List.append_assoc]]
    exact pyFind_append_cons pre _ hpre
  have hrfind : pyRfind (pre ++ (lcurly :: (mid ++ [rcurly])) ++ post) rcurly
      = ((pre ++ lcurly :: mid).length : Int) := by
    rw [show pre ++ (lcurly :: (mid ++ [rcurly])) ++ post
        = ((pre ++ lcurly :: mid) ++ [rcurly]) ++ post by
      simp [List.append_assoc]]
    rw [pyRfind_append_right _ hpost, pyRfind_append_singleton]
  have hcand : json_candidate
      (String.mk (pre ++ (lcurly :: (mid ++ [rcurly])) ++ post))
      = String.mk (lcurly :: (mid ++ [rcurly])) := by
    unfold json_candidate
    rw [hdata, hfind, hrfind]
    rw [show ((pre.length : Int)).toNat = pre.length by omega]
    rw [show (((pre ++ lcurly :: mid).length : Int) + 1).toNat
        = pre.length + (mid.length + 2) by
      simp only [List.length_append, List.length_cons, List.length_nil]
      omega]
    unfold pySlice
    rw [show pre.length + (mid.length + 2) - pre.length = mid.length + 2 by
      omega]
    rw [show pre ++ (lcurly :: (mid ++ [rcurly])) ++ post
        = pre ++ ((lcurly :: (mid ++ [rcurly])) ++ post) by
      simp [List.append_assoc]]
    rw [List.drop_left]
    rw [show mid.length + 2 = (lcurly :: (mid ++ [rcurly])).length by
      simp only [List.length_cons, List.length_append, List.length_nil]]
    rw [List.take_left]
    rw [sanitize_json_str_eq_self hnl hcr]
  have hfound : pyFind
      (String.mk (pre ++ (lcurly :: (mid ++ [rcurly])) ++ post)).data
      lcurly ≠ -1 := by
    rw [hdata, hfind]
    omega
  rw [normalize_of_found hfound, hcand, hparse]

/-- C1 witness: the spec's own round-trip example — a JSON object in a
code fence surrounded by prose is extracted to exactly its three
fields. -/
theorem claim1_witness :
    json_loads (String.mk (lcurly ::
        ("\"final_answer_summary\":\"ok\",\"detailed_logic\":\"step1\",\"chart_data\":\x7b\"A\":1\x7d".data
          ++ [rcurly]))) =
      .ok (Json.obj [("final_answer_summary", Json.str "ok"),
        ("detailed_logic", Json.str "step1"),
        ("chart_data", Json.obj [("A", Json.num "1")])]) ∧
    ask_claude_json_normalize (String.mk ("Sure! ```json\n".data ++
        (lcurly ::
          ("\"final_answer_summary\":\"ok\",\"detailed_logic\":\"step1\",\"chart_data\":\x7b\"A\":1\x7d".data
            ++ [rcurly])) ++ "\n```".data)) =
      Json.obj [("final_answer_summary", Json.str "ok"),
        ("detailed_logic", Json.str "step1"),
        ("chart_data", Json.obj [("A", Json.num "1")])] :=
  ⟨by rfl,
    claim1_amended_extraction "Sure! ```json\n".data
      "\"final_answer_summary\":\"ok\",\"detailed_logic\":\"step1\",\"chart_data\":\x7b\"A\":1\x7d".data
      "\n```".data
      [("final_answer_summary", Json.str "ok"),
        ("detailed_logic", Json.str "step1"),
        ("chart_data", Json.obj [("A", Json.num "1")])]
      (by decide) (by decide) (by decide) (by decide) (by rfl)⟩
